import Mathlib

/-!
Shallow embedding of the playlist-archiving core of `playlist_logic.py`
(functions `get_all_playlists`, `get_playlist_id_by_name`,
`get_playlist_tracks`, `save_playlist_to_markdown`, `handle_archive_batch`,
`handle_archive_all`) together with theorems settling the specification
claims about pagination, track formatting, name resolution, archive
writing and batch error behaviour.

Modelling conventions:
- The remote catalog service is a function from a byte offset to a `Page`
  (items plus the truthiness of the `next` field of the JSON response).
- Python `while True` loops are embedded with explicit fuel; returning
  `none` means the fuel ran out before the loop finished, so termination
  of the loop on a given remote is `∃ fuel, (… fuel …).isSome`.
- `unicodedata.normalize('NFKC', ·)` is an arbitrary function parameter
  `nfkc : String → String` (it is the identity on the ASCII strings used
  in concrete instances); `thefuzz`'s similarity scorer is likewise a
  parameter `scorer : String → String → Nat` on the 0–100 scale.
- The filesystem is a map from path to file content; opening a file in
  mode `"w"` and writing replaces the content at that path.
- A Python exception aborting a loop is an `Except.error` result; the
  filesystem component of the state survives it, as files written before
  an exception do on disk.
-/

/-- A playlist item as returned by the remote listing: its opaque `id`
and display `name` (the only fields the core reads). -/
structure Playlist where
  id : String
  name : String
deriving DecidableEq, Repr

/-- An artist entry of a track; `name` is `none` when the JSON field is
null/missing. -/
structure Artist where
  name : Option String
deriving DecidableEq, Repr

/-- A track record: display name and ordered artist list (possibly empty). -/
structure Track where
  name : String
  artists : List Artist
deriving DecidableEq, Repr

/-- One page of a paginated remote response: the `items` list and the
truthiness of the `next` field. -/
structure Page (α : Type) where
  items : List α
  next : Bool
deriving DecidableEq, Repr

/-- A remote endpoint: maps a requested offset to the page served there. -/
def Remote (α : Type) : Type := Nat → Page α

/-- The standard remote behaviour for a listing `xs`: the page at
`offset` holds the next `limit` items and `next` is set exactly when
items remain past this page. -/
def listRemote (limit : Nat) (xs : List α) : Remote α :=
  fun offset => ⟨(xs.drop offset).take limit, decide (offset + limit < xs.length)⟩

/-- The pagination loop of `get_all_playlists` (`playlist_logic.py`
lines 42–51): extend the accumulator with the page's items, then advance
the offset by `limit` if the page's `next` field is truthy, else stop.
`none` means the fuel ran out (the Python loop would still be running). -/
def paginateLoop (remote : Remote α) (limit : Nat) :
    Nat → Nat → List α → Option (List α)
  | 0, _, _ => none
  | fuel + 1, offset, acc =>
    let batch := remote offset
    let acc := acc ++ batch.items
    if batch.next then paginateLoop remote limit fuel (offset + limit) acc
    else some acc

/-- `get_all_playlists`: pagination over the playlist listing with the
hard-coded page size 50, starting at offset 0 with an empty accumulator. -/
def get_all_playlists (remote : Remote Playlist) (fuel : Nat) :
    Option (List Playlist) :=
  paginateLoop remote 50 fuel 0 []

/-- Rendering of one artist entry: Python's
`artist["name"] or 'Unknown Artist'` (line 99), which substitutes the
fallback for a null and also for an empty-string name. -/
def artistDisplay (a : Artist) : String :=
  match a.name with
  | none => "Unknown Artist"
  | some s => if s = "" then "Unknown Artist" else s

/-- The artist segment of a formatted line (lines 97–102): comma-join of
the rendered artist entries when the list is non-empty, otherwise the
literal `"Unknown Artist"`. -/
def artistSegment (t : Track) : String :=
  if t.artists.isEmpty then "Unknown Artist"
  else String.intercalate ", " (t.artists.map artistDisplay)

/-- One formatted line (line 103): `f"{idx}. _{track['name']}_ by {artist_names}"`. -/
def trackLine (idx : Nat) (t : Track) : String :=
  toString idx ++ ". _" ++ t.name ++ "_ by " ++ artistSegment t

/-- The inner `for item in items` body of `get_playlist_tracks`
(lines 92–103): skip a null track, otherwise increment the counter and
emit the line. Returns the emitted lines and the counter after the run. -/
def formatItems : List (Option Track) → Nat → List String × Nat
  | [], idx => ([], idx)
  | none :: rest, idx => formatItems rest idx
  | some t :: rest, idx =>
    let r := formatItems rest (idx + 1)
    (trackLine (idx + 1) t :: r.1, r.2)

/-- The pagination loop of `get_playlist_tracks` (lines 83–108): break on
an empty items list, otherwise format the page's items (threading the
counter), then advance by `limit` if `next` is truthy, else stop. -/
def tracksLoop (remote : Remote (Option Track)) (limit : Nat) :
    Nat → Nat → Nat → List String → Option (List String)
  | 0, _, _, _ => none
  | fuel + 1, offset, idx, acc =>
    let page := remote offset
    if page.items.isEmpty then some acc
    else
      let r := formatItems page.items idx
      let acc := acc ++ r.1
      if page.next then tracksLoop remote limit fuel (offset + limit) r.2 acc
      else some acc

/-- `get_playlist_tracks`: track pagination with the hard-coded page size
100, counter starting at 0 and offset 0. -/
def get_playlist_tracks (remote : Remote (Option Track)) (fuel : Nat) :
    Option (List String) :=
  tracksLoop remote 100 fuel 0 0 []

/-- Contiguously numbered lines starting at `i`: the characterization of
the formatter's output used by the claims (not part of the source). -/
def numberedFrom (i : Nat) : List Track → List String
  | [] => []
  | t :: ts => trackLine i t :: numberedFrom (i + 1) ts

/-- The filesystem visible to the archiver: content by path (`none` when
no file exists at the path). -/
def FS : Type := String → Option String

/-- Python's `s.replace(' ', '_')`: the pattern is the single character
`' '`, so the replacement is a character-wise map. -/
def replaceSpaces (s : String) : String :=
  ⟨s.data.map (fun c => if c = ' ' then '_' else c)⟩

/-- Python's `s.lower()`, character-wise (`Char.toLower`; this agrees
with Python on the ASCII names the claims use). -/
def lowerName (s : String) : String :=
  ⟨s.data.map Char.toLower⟩

/-- The derived archive path (`playlist_logic.py` line 116):
`f"{directory}/{playlist_name.replace(' ', '_').lower()}_playlist_archive.md"`
with `directory = "archive"`. -/
def output_filename (playlist_name : String) : String :=
  "archive/" ++ lowerName (replaceSpaces playlist_name) ++ "_playlist_archive.md"

/-- The full text written by `save_playlist_to_markdown` (lines 118–121):
the header `f"# {playlist_name} Song Archive\n\n"` followed by each track
line with a trailing newline. -/
def archive_content (playlist_name : String) (tracks : List String) : String :=
  "# " ++ playlist_name ++ " Song Archive\n\n" ++
    String.join (tracks.map (fun line => line ++ "\n"))

/-- `save_playlist_to_markdown` (lines 111–123): open the derived path in
mode `"w"` (truncate) and write the archive content, then return the
path. Embedded as the updated filesystem paired with the returned path. -/
def save_playlist_to_markdown (playlist_name : String) (tracks : List String)
    (fs : FS) : FS × String :=
  (fun path =>
    if path = output_filename playlist_name then
      some (archive_content playlist_name tracks)
    else fs path,
    output_filename playlist_name)

section PaginationLemmas

variable {α : Type}

theorem formatItems_append (l₁ l₂ : List (Option Track)) (idx : Nat) :
    formatItems (l₁ ++ l₂) idx =
      ((formatItems l₁ idx).1 ++ (formatItems l₂ (formatItems l₁ idx).2).1,
        (formatItems l₂ (formatItems l₁ idx).2).2) := by
  induction l₁ generalizing idx with
  | nil => simp [formatItems]
  | cons hd tl ih =>
    cases hd with
    | none => simpa [formatItems] using ih _
    | some t => simp [formatItems, ih]

theorem listDropSplit (xs : List α) (offset P : Nat) :
    xs.drop offset = (xs.drop offset).take P ++ xs.drop (offset + P) := by
  conv_lhs => rw [← List.take_append_drop P (xs.drop offset)]
  rw [List.drop_drop]

theorem paginateLoop_listRemote (P : Nat) (hP : 0 < P) (xs : List α) :
    ∀ fuel offset acc, xs.length - offset < fuel →
      paginateLoop (listRemote P xs) P fuel offset acc =
        some (acc ++ xs.drop offset) := by
  intro fuel
  induction fuel with
  | zero => intro offset acc h; omega
  | succ fuel ih =>
    intro offset acc h
    simp only [paginateLoop, listRemote]
    by_cases hnext : offset + P < xs.length
    · rw [if_pos (decide_eq_true hnext), ih (offset + P) _ (by omega),
        List.append_assoc]
      congr 2
      exact (listDropSplit xs offset P).symm
    · rw [if_neg (by simpa using hnext)]
      congr 2
      exact List.take_of_length_le (by simp; omega)

theorem tracksLoop_listRemote (P : Nat) (hP : 0 < P)
    (xs : List (Option Track)) :
    ∀ fuel offset idx acc, xs.length - offset < fuel →
      tracksLoop (listRemote P xs) P fuel offset idx acc =
        some (acc ++ (formatItems (xs.drop offset) idx).1) := by
  intro fuel
  induction fuel with
  | zero => intro offset idx acc h; omega
  | succ fuel ih =>
    intro offset idx acc h
    simp only [tracksLoop, listRemote]
    by_cases hempty : (xs.drop offset).take P = []
    · have hdrop : xs.drop offset = [] := by
        rcases List.take_eq_nil_iff.mp hempty with h0 | h0
        · omega
        · exact h0
      simp [hempty, hdrop, formatItems]
    · rw [if_neg (by simpa using hempty)]
      by_cases hnext : offset + P < xs.length
      · rw [if_pos (decide_eq_true hnext), ih (offset + P) _ _ (by omega),
          List.append_assoc]
        congr 2
        conv_rhs => rw [listDropSplit xs offset P, formatItems_append]
      · rw [if_neg (by simpa using hnext)]
        congr 2
        rw [List.take_of_length_le (l := xs.drop offset) (by simp; omega)]

end PaginationLemmas

/-- **C1.** For every listing `xs` of size `N` and every positive page
size `P`, the pagination loop of the source returns exactly `xs` in
order (all `N` items, any relation of `N` to `P` included): it starts at
offset 0, advances by the fixed page size while `next` is truthy, and
accumulates in fetch order. The same holds for the two instantiations of
the source, `get_all_playlists` (page size 50) and `get_playlist_tracks`
(page size 100), the latter emitting the formatting of the full item
stream in order. -/
theorem c1_paginator_returns_all_items (P : Nat) (hP : 0 < P)
    (xs : List Playlist) (ts : List (Option Track)) :
    paginateLoop (listRemote P xs) P (xs.length + 1) 0 [] = some xs ∧
    get_all_playlists (listRemote 50 xs) (xs.length + 1) = some xs ∧
    get_playlist_tracks (listRemote 100 ts) (ts.length + 1) =
      some (formatItems ts 0).1 := by
  refine ⟨?_, ?_, ?_⟩
  · simpa using paginateLoop_listRemote P hP xs (xs.length + 1) 0 [] (by omega)
  · simpa [get_all_playlists] using
      paginateLoop_listRemote 50 (by omega) xs (xs.length + 1) 0 [] (by omega)
  · simpa [get_playlist_tracks] using
      tracksLoop_listRemote 100 (by omega) ts (ts.length + 1) 0 0 [] (by omega)

/-- Witness for C1 at a concrete listing of 3 items and page size 2
(so N = P + 1), and concrete tracks including a null entry. -/
theorem c1_paginator_returns_all_items_witness :
    0 < 2 ∧
    (paginateLoop
        (listRemote 2 [Playlist.mk "a" "A", Playlist.mk "b" "B", Playlist.mk "c" "C"])
        2 4 0 [] =
      some [Playlist.mk "a" "A", Playlist.mk "b" "B", Playlist.mk "c" "C"] ∧
    get_all_playlists
        (listRemote 50 [Playlist.mk "a" "A", Playlist.mk "b" "B", Playlist.mk "c" "C"]) 4 =
      some [Playlist.mk "a" "A", Playlist.mk "b" "B", Playlist.mk "c" "C"] ∧
    get_playlist_tracks
        (listRemote 100 [some (Track.mk "S" []), none]) 3 =
      some (formatItems [some (Track.mk "S" []), none] 0).1) :=
  ⟨by decide,
    c1_paginator_returns_all_items 2 (by decide)
      [Playlist.mk "a" "A", Playlist.mk "b" "B", Playlist.mk "c" "C"]
      [some (Track.mk "S" []), none]⟩

section FormatterLemmas

theorem formatItems_numberedFrom (xs : List (Option Track)) :
    ∀ idx, (formatItems xs idx).1 = numberedFrom (idx + 1) (xs.filterMap id) ∧
      (formatItems xs idx).2 = idx + (xs.filterMap id).length := by
  induction xs with
  | nil => intro idx; simp [formatItems, numberedFrom]
  | cons hd tl ih =>
    intro idx
    cases hd with
    | none => simpa [formatItems, List.filterMap_cons] using ih idx
    | some t =>
      have h := ih (idx + 1)
      refine ⟨?_, ?_⟩
      · simp [formatItems, List.filterMap_cons, numberedFrom, h.1]
      · simp only [formatItems, List.filterMap_cons, id_eq, h.2,
          List.length_cons]
        omega

theorem filterMap_id_count (xs : List (Option Track)) :
    (xs.filterMap id).length + xs.countP (fun t => t.isNone) = xs.length := by
  induction xs with
  | nil => simp
  | cons hd tl ih =>
    cases hd with
    | none =>
      simp only [List.filterMap_cons, id_eq, List.countP_cons,
        Option.isNone_none, if_pos, List.length_cons, cond_true]
      omega
    | some t =>
      simp [List.filterMap_cons, List.countP_cons]
      omega

end FormatterLemmas

/-- **C2.** For a raw item stream of `n` entries of which `k` are null
tracks, the formatter body of `get_playlist_tracks` emits exactly
`n − k` lines, numbered contiguously starting at 1 (`numberedFrom 1` over
the non-null tracks in order): nulls produce no placeholder and consume
no position, and the counter is threaded across page boundaries
(formatting a concatenation continues the numbering where the first part
stopped). -/
theorem c2_formatter_skips_nulls_contiguous_numbering
    (xs l₁ l₂ : List (Option Track)) (idx : Nat) :
    (formatItems xs 0).1 = numberedFrom 1 (xs.filterMap id) ∧
    (formatItems xs 0).1.length =
      xs.length - xs.countP (fun t => t.isNone) ∧
    formatItems (l₁ ++ l₂) idx =
      ((formatItems l₁ idx).1 ++ (formatItems l₂ (formatItems l₁ idx).2).1,
        (formatItems l₂ (formatItems l₁ idx).2).2) := by
  refine ⟨(formatItems_numberedFrom xs 0).1, ?_, formatItems_append l₁ l₂ idx⟩
  have hlen : ∀ i ts, (numberedFrom i ts).length = ts.length := by
    intro i ts
    induction ts generalizing i with
    | nil => rfl
    | cons t ts ih => simp [numberedFrom, ih]
  rw [(formatItems_numberedFrom xs 0).1, hlen]
  have := filterMap_id_count xs
  omega

/-- **C9.** An empty artist list renders the artist segment as the single
literal `"Unknown Artist"` (not an empty segment), and an individual
artist entry whose name is null renders as the literal
`"Unknown Artist"`. -/
theorem c9_unknown_artist_fallback :
    (∀ t : Track, t.artists = [] → artistSegment t = "Unknown Artist") ∧
    (∀ a : Artist, a.name = none → artistDisplay a = "Unknown Artist") := by
  constructor
  · intro t h
    simp [artistSegment, h]
  · intro a h
    simp [artistDisplay, h]

/-- Witness for C9: a concrete track with no artists and a concrete
artist entry with a null name. -/
theorem c9_unknown_artist_fallback_witness :
    artistSegment (Track.mk "Song" []) = "Unknown Artist" ∧
    artistDisplay (Artist.mk none) = "Unknown Artist" :=
  ⟨c9_unknown_artist_fallback.1 (Track.mk "Song" []) rfl,
    c9_unknown_artist_fallback.2 (Artist.mk none) rfl⟩

/-- **C4.** The written archive file's content is the header line
`# <playlist_name> Song Archive`, a blank line, then each formatted line
verbatim, newline-terminated (first conjunct, for every name, track list
and prior filesystem); and the round-trip instance: formatting
`[Song A by Artist X, null, Song B with no artists]` yields exactly the
two lines `1. _Song A_ by Artist X` and `2. _Song B_ by Unknown Artist`,
and the archived content is exactly header, blank line and those two
lines. -/
theorem c4_archive_content_roundtrip :
    (∀ (name : String) (tracks : List String) (fs : FS),
      (save_playlist_to_markdown name tracks fs).1
          ((save_playlist_to_markdown name tracks fs).2) =
        some (archive_content name tracks)) ∧
    (formatItems
        [some (Track.mk "Song A" [Artist.mk (some "Artist X")]),
          none,
          some (Track.mk "Song B" [])] 0).1 =
      ["1. _Song A_ by Artist X", "2. _Song B_ by Unknown Artist"] ∧
    archive_content "My Mix"
        ["1. _Song A_ by Artist X", "2. _Song B_ by Unknown Artist"] =
      "# My Mix Song Archive\n\n1. _Song A_ by Artist X\n2. _Song B_ by Unknown Artist\n" := by
  refine ⟨?_, by decide, by decide⟩
  intro name tracks fs
  simp [save_playlist_to_markdown]

/-- Witness for C4 at a concrete name, track list and empty filesystem. -/
theorem c4_archive_content_roundtrip_witness :
    (save_playlist_to_markdown "My Mix" ["1. _S_ by A"] (fun _ => none)).1
        ((save_playlist_to_markdown "My Mix" ["1. _S_ by A"] (fun _ => none)).2) =
      some (archive_content "My Mix" ["1. _S_ by A"]) :=
  c4_archive_content_roundtrip.1 "My Mix" ["1. _S_ by A"] (fun _ => none)

/-- **C5.** The archive path is the pure derivation
`archive/<name with spaces→underscores, lowercased>_playlist_archive.md`
(the returned path equals `output_filename name`, and
`output_filename "My Playlist!"` is exactly
`archive/my_playlist!_playlist_archive.md`), and writing truncates: after
two consecutive writes under the same name, the filesystem agrees
everywhere with the one produced by the second write alone. -/
theorem c5_filename_derivation_truncate_on_write
    (name : String) (t₁ t₂ : List String) (fs : FS) (p : String) :
    (save_playlist_to_markdown name t₂
        (save_playlist_to_markdown name t₁ fs).1).1 p =
      (save_playlist_to_markdown name t₂ fs).1 p ∧
    (save_playlist_to_markdown name t₁ fs).2 = output_filename name ∧
    output_filename "My Playlist!" = "archive/my_playlist!_playlist_archive.md" := by
  refine ⟨?_, rfl, by decide⟩
  by_cases h : p = output_filename name <;>
    simp [save_playlist_to_markdown, h]

/-- Python's `s.strip()`: drop whitespace from both ends, character-wise. -/
def stripName (s : String) : String :=
  ⟨((s.data.dropWhile Char.isWhitespace).reverse.dropWhile
      Char.isWhitespace).reverse⟩

/-- The exact-match loop of `get_playlist_id_by_name` (lines 56–59):
first playlist in listing order whose stripped, NFKC-normalized,
lowercased name equals the lowercased query (the query itself is neither
stripped nor normalized in the source). -/
def exactMatchLoop (nfkc : String → String) (inputted_playlist_name : String) :
    List Playlist → Option String
  | [] => none
  | p :: ps =>
    if lowerName (nfkc (stripName p.name)) = lowerName inputted_playlist_name
    then some p.id
    else exactMatchLoop nfkc inputted_playlist_name ps

/-- The keys of the dict comprehension on line 62
(`{normalize(p['name'].strip()): p['id'] for p in playlists}`): normalized
names, deduplicated keeping the first occurrence's position. -/
def playlistNamesKeys (nfkc : String → String) (playlists : List Playlist) :
    List String :=
  (playlists.map (fun p => nfkc (stripName p.name))).foldl
    (fun acc n => if n ∈ acc then acc else acc ++ [n]) []

/-- Insertion into a list sorted by descending score, after any entry
with an equal score (stable, as `heapq.nlargest` is). -/
def insertByScore (m : String × Nat) : List (String × Nat) → List (String × Nat)
  | [] => [m]
  | x :: xs => if x.2 < m.2 then m :: x :: xs else x :: insertByScore m xs

/-- Sort candidate matches by descending score, stably. -/
def sortByScore : List (String × Nat) → List (String × Nat)
  | [] => []
  | x :: xs => insertByScore x (sortByScore xs)

/-- `process.extractBests(query, keys, score_cutoff=threshold, limit=3)`
(lines 63–68): score every key with the similarity `scorer`, keep scores
`≥ threshold`, best three first. -/
def extractBests (scorer : String → String → Nat) (threshold : Nat)
    (keys : List String) (query : String) : List (String × Nat) :=
  (sortByScore ((keys.map (fun n => (n, scorer query n))).filter
    (fun m => threshold ≤ m.2))).take 3

/-- `get_playlist_id_by_name` (lines 53–77) over an already-fetched
listing: the returned playlist id (first component; the source returns
`None` whenever the exact loop fails, lines 70–77) and the fuzzy
suggestions surfaced to the user (second component; empty when an exact
match short-circuits the fuzzy search or no match clears the cutoff). -/
def get_playlist_id_by_name (nfkc : String → String)
    (scorer : String → String → Nat) (fuzzy_threshold : Nat)
    (playlists : List Playlist) (inputted_playlist_name : String) :
    Option String × List (String × Nat) :=
  match exactMatchLoop nfkc inputted_playlist_name playlists with
  | some pid => (some pid, [])
  | none =>
    (none,
      extractBests scorer fuzzy_threshold (playlistNamesKeys nfkc playlists)
        inputted_playlist_name)

/-- The resolver's exact-match step as the specification words it (claim
side, for comparison only): normalize (strip + NFKC) BOTH the query and
every playlist name, compare case-insensitively, first match in listing
order wins. -/
def resolveExactSpec (nfkc : String → String) (playlists : List Playlist)
    (query : String) : Option String :=
  (playlists.find? (fun p =>
    lowerName (nfkc (stripName p.name)) = lowerName (nfkc (stripName query)))).map
    Playlist.id

section ResolverLemmas

theorem get_playlist_id_fst (nfkc : String → String)
    (scorer : String → String → Nat) (threshold : Nat)
    (playlists : List Playlist) (query : String) :
    (get_playlist_id_by_name nfkc scorer threshold playlists query).1 =
      exactMatchLoop nfkc query playlists := by
  cases h : exactMatchLoop nfkc query playlists <;>
    simp [get_playlist_id_by_name, h]

theorem exactMatchLoop_eq_find (nfkc : String → String) (query : String)
    (playlists : List Playlist) :
    exactMatchLoop nfkc query playlists =
      (playlists.find? (fun p =>
        lowerName (nfkc (stripName p.name)) = lowerName query)).map
        Playlist.id := by
  induction playlists with
  | nil => rfl
  | cons p ps ih =>
    by_cases h : lowerName (nfkc (stripName p.name)) = lowerName query
    · simp [exactMatchLoop, h]
    · rw [exactMatchLoop, if_neg h, ih,
        List.find?_cons_of_neg _ (by simpa using h)]

end ResolverLemmas

/-- **C3 counterexample.** The claim's resolver (query normalized too)
finds the playlist named `"foo"` for the query `" foo"`, but the source
resolver — which lowercases the query without stripping or normalizing
it — returns no playlist id there (`nfkc` instantiated to the identity,
which NFKC is on these ASCII strings). -/
theorem c3_counterexample :
    resolveExactSpec id [Playlist.mk "p1" "foo"] " foo" = some "p1" ∧
    (get_playlist_id_by_name id (fun _ _ => 0) 80
        [Playlist.mk "p1" "foo"] " foo").1 = none := by
  constructor
  · rfl
  · rfl

/-- **C3 (amended).** The resolver normalizes (strips, then NFKC) and
lowercases every playlist name, but compares against the *lowercased
query as-is* (the query is not stripped or NFKC-normalized); the first
playlist in listing order whose normalized lowercased name equals the
lowercased query is returned, and when such a match exists the fuzzy
search is never triggered (no suggestions are surfaced). -/
theorem c3_exact_match_first_no_fuzzy (nfkc : String → String)
    (scorer : String → String → Nat) (threshold : Nat)
    (playlists : List Playlist) (query : String) :
    (get_playlist_id_by_name nfkc scorer threshold playlists query).1 =
      (playlists.find? (fun p =>
        lowerName (nfkc (stripName p.name)) = lowerName query)).map
        Playlist.id ∧
    ((playlists.find? (fun p =>
        lowerName (nfkc (stripName p.name)) = lowerName query)).isSome →
      (get_playlist_id_by_name nfkc scorer threshold playlists query).2 = []) := by
  constructor
  · rw [get_playlist_id_fst, exactMatchLoop_eq_find]
  · intro h
    have hloop : (exactMatchLoop nfkc query playlists).isSome := by
      rw [exactMatchLoop_eq_find]
      simpa using h
    rcases Option.isSome_iff_exists.mp hloop with ⟨pid, hpid⟩
    simp [get_playlist_id_by_name, hpid]

/-- Witness for C3 (amended): a query that matches the second playlist
exactly after name normalization; the resolver returns that playlist's
id and surfaces no suggestions. -/
theorem c3_exact_match_first_no_fuzzy_witness :
    (get_playlist_id_by_name id (fun _ _ => 95) 80
        [Playlist.mk "p1" "Alpha", Playlist.mk "p2" " Beta "] "beta").1 =
      some "p2" ∧
    (get_playlist_id_by_name id (fun _ _ => 95) 80
        [Playlist.mk "p1" "Alpha", Playlist.mk "p2" " Beta "] "beta").2 = [] :=
  ⟨by
    rw [(c3_exact_match_first_no_fuzzy id (fun _ _ => 95) 80
      [Playlist.mk "p1" "Alpha", Playlist.mk "p2" " Beta "] "beta").1]
    rfl,
    (c3_exact_match_first_no_fuzzy id (fun _ _ => 95) 80
      [Playlist.mk "p1" "Alpha", Playlist.mk "p2" " Beta "] "beta").2
      (by rfl)⟩

/-- **C10.** The resolver returns a playlist id only when some playlist's
normalized lowercased name equals the lowercased query: the returned id
is independent of the fuzzy scorer (first conjunct), and it is present
exactly when such an exact match exists (second conjunct) — so a fuzzy
match above the threshold is only ever surfaced as a suggestion, never
auto-picked as the result. -/
theorem c10_fuzzy_never_auto_picked (nfkc : String → String)
    (scorer₁ scorer₂ : String → String → Nat) (threshold : Nat)
    (playlists : List Playlist) (query : String) :
    (get_playlist_id_by_name nfkc scorer₁ threshold playlists query).1 =
      (get_playlist_id_by_name nfkc scorer₂ threshold playlists query).1 ∧
    ((get_playlist_id_by_name nfkc scorer₁ threshold playlists query).1.isSome ↔
      ∃ p ∈ playlists,
        lowerName (nfkc (stripName p.name)) = lowerName query) := by
  constructor
  · rw [get_playlist_id_fst, get_playlist_id_fst]
  · rw [get_playlist_id_fst, exactMatchLoop_eq_find]
    simp [List.find?_isSome]

/-- Witness for C10: with a scorer that rates every candidate 100, the
resolver still returns no id for a query with no exact match. -/
theorem c10_fuzzy_never_auto_picked_witness :
    (get_playlist_id_by_name id (fun _ _ => 100) 80
        [Playlist.mk "p1" "Summer Vibes"] "Summr Vibes").1 =
      (get_playlist_id_by_name id (fun _ _ => 0) 80
        [Playlist.mk "p1" "Summer Vibes"] "Summr Vibes").1 :=
  (c10_fuzzy_never_auto_picked id (fun _ _ => 100) (fun _ _ => 0) 80
    [Playlist.mk "p1" "Summer Vibes"] "Summr Vibes").1

/-- The per-name loop of `handle_archive_batch` (lines 163–172): a name
whose resolution yields no id is reported and skipped (the skip counter
increments); otherwise tracks are fetched — an exception there, embedded
as `Except.error`, propagates and aborts the loop, the filesystem
keeping only what was written so far — formatted and written. Returns
the filesystem together with the outcome (`ok` carries the number of
skips reported). -/
def archiveBatchLoop (resolve : String → Option String)
    (fetchTracks : String → Except String (List String)) :
    List String → FS → Nat → FS × Except String Nat
  | [], fs, skips => (fs, Except.ok skips)
  | n :: rest, fs, skips =>
    match resolve n with
    | none => archiveBatchLoop resolve fetchTracks rest fs (skips + 1)
    | some pid =>
      match fetchTracks pid with
      | Except.error e => (fs, Except.error e)
      | Except.ok tracks =>
        archiveBatchLoop resolve fetchTracks rest
          (save_playlist_to_markdown n tracks fs).1 skips

/-- `handle_archive_batch` (lines 145–173) after the batch file has been
read into its non-blank lines: an empty name list raises
`PlaylistArchiverError` (line 161), otherwise the per-name loop runs. -/
def handle_archive_batch (resolve : String → Option String)
    (fetchTracks : String → Except String (List String))
    (playlist_names : List String) (fs : FS) : FS × Except String Nat :=
  if playlist_names.isEmpty then
    (fs, Except.error "No playlist names found in the batch file.")
  else archiveBatchLoop resolve fetchTracks playlist_names fs 0

/-- The loop of `handle_archive_all` (lines 196–202) over the fetched
listing: for each playlist, fetch its tracks (an exception aborts the
loop, embedded as `Except.error`) and write its archive. -/
def handle_archive_all (fetchTracks : String → Except String (List String)) :
    List Playlist → FS → FS × Except String Unit
  | [], fs => (fs, Except.ok ())
  | p :: rest, fs =>
    match fetchTracks p.id with
    | Except.error e => (fs, Except.error e)
    | Except.ok tracks =>
      handle_archive_all fetchTracks rest
        (save_playlist_to_markdown p.name tracks fs).1

/-- **C6.** Named batch `["RealList", "GhostList"]` where only
`"RealList"` resolves: the batch completes without raising
(`Except.ok`), reports exactly one skip, and the resulting filesystem
holds exactly one archive file — the one for `"RealList"`, with its
formatted content — and nothing at any other path. -/
theorem c6_batch_skips_unresolved (p : String) :
    (handle_archive_batch
        (fun n => if n = "RealList" then some "id1" else none)
        (fun _ => Except.ok ["1. _S_ by A"])
        ["RealList", "GhostList"] (fun _ => none)).2 = Except.ok 1 ∧
    (handle_archive_batch
        (fun n => if n = "RealList" then some "id1" else none)
        (fun _ => Except.ok ["1. _S_ by A"])
        ["RealList", "GhostList"] (fun _ => none)).1
        (output_filename "RealList") =
      some (archive_content "RealList" ["1. _S_ by A"]) ∧
    (p ≠ output_filename "RealList" →
      (handle_archive_batch
          (fun n => if n = "RealList" then some "id1" else none)
          (fun _ => Except.ok ["1. _S_ by A"])
          ["RealList", "GhostList"] (fun _ => none)).1 p = none) := by
  refine ⟨rfl, rfl, ?_⟩
  intro hp
  have step : (handle_archive_batch
      (fun n => if n = "RealList" then some "id1" else none)
      (fun _ => Except.ok ["1. _S_ by A"])
      ["RealList", "GhostList"] (fun _ => none)).1 p =
        (if p = output_filename "RealList" then
          some (archive_content "RealList" ["1. _S_ by A"]) else none) := rfl
  rw [step, if_neg hp]

/-- Witness for C6 at the concrete path `"zzz"`, which is not the
archive path of `"RealList"`. -/
theorem c6_batch_skips_unresolved_witness :
    "zzz" ≠ output_filename "RealList" ∧
    (handle_archive_batch
        (fun n => if n = "RealList" then some "id1" else none)
        (fun _ => Except.ok ["1. _S_ by A"])
        ["RealList", "GhostList"] (fun _ => none)).1 "zzz" = none :=
  ⟨by decide, (c6_batch_skips_unresolved "zzz").2.2 (by decide)⟩

/-- **C8 counterexample.** Two names `"A"` and `"B"` both resolve, but
fetching the tracks of `"A"` raises: the batch loop aborts with that
error and `"B"`'s archive is never written — the later playlist is NOT
still processed, contradicting the claim. -/
theorem c8_counterexample :
    (handle_archive_batch (fun n => some n)
        (fun pid => if pid = "A" then Except.error "network error"
          else Except.ok [])
        ["A", "B"] (fun _ => none)).2 = Except.error "network error" ∧
    (handle_archive_batch (fun n => some n)
        (fun pid => if pid = "A" then Except.error "network error"
          else Except.ok [])
        ["A", "B"] (fun _ => none)).1 (output_filename "B") = none := by
  exact ⟨rfl, rfl⟩

/-- **C8 (amended).** A resolution failure for one name is skipped and
the loop continues with the remaining names (third conjunct), but an
error raised while fetching the tracks of one playlist aborts the
remaining items in both the named-batch loop (first conjunct) and the
full-bulk loop (second conjunct): the loop stops at the failing item,
the error propagates as the outcome (reported at the dispatch boundary),
and the filesystem is left exactly as it was before the failing item, so
no later playlist is processed. (A write failure would abort the same
way: in the source neither the fetch nor the write inside the loop is
guarded by a try/except.) -/
theorem c8_fetch_error_aborts_batch (resolve : String → Option String)
    (fetchTracks : String → Except String (List String))
    (n : String) (rest : List String) (fs : FS) (skips : Nat)
    (pid e : String) (q : Playlist) (qs : List Playlist) :
    (resolve n = some pid → fetchTracks pid = Except.error e →
      archiveBatchLoop resolve fetchTracks (n :: rest) fs skips =
        (fs, Except.error e)) ∧
    (fetchTracks q.id = Except.error e →
      handle_archive_all fetchTracks (q :: qs) fs = (fs, Except.error e)) ∧
    (resolve n = none →
      archiveBatchLoop resolve fetchTracks (n :: rest) fs skips =
        archiveBatchLoop resolve fetchTracks rest fs (skips + 1)) := by
  refine ⟨fun h1 h2 => ?_, fun h => ?_, fun h => ?_⟩
  · simp only [archiveBatchLoop, h1, h2]
  · simp only [handle_archive_all, h]
  · simp only [archiveBatchLoop, h]

/-- Witness for C8 (amended) at a concrete resolver, fetcher, batch and
listing. -/
theorem c8_fetch_error_aborts_batch_witness :
    archiveBatchLoop (fun n => some n) (fun _ => Except.error "boom")
        ["A", "B"] (fun _ => none) 0 =
      ((fun _ => none), Except.error "boom") ∧
    handle_archive_all (fun _ => Except.error "boom")
        [Playlist.mk "a" "A", Playlist.mk "b" "B"] (fun _ => none) =
      ((fun _ => none), Except.error "boom") :=
  ⟨(c8_fetch_error_aborts_batch (fun n => some n)
      (fun _ => Except.error "boom") "A" ["B"] (fun _ => none) 0 "A" "boom"
      (Playlist.mk "a" "A") []).1 rfl rfl,
    (c8_fetch_error_aborts_batch (fun n => some n)
      (fun _ => Except.error "boom") "A" ["B"] (fun _ => none) 0 "A" "boom"
      (Playlist.mk "a" "A") [Playlist.mk "b" "B"]).2.1 rfl⟩

/-- A remote playlist listing that always reports a truthy `next` with an
empty items list. -/
def alwaysNextEmptyRemote : Remote Playlist := fun _ => ⟨[], true⟩

theorem paginateLoop_alwaysNextEmpty (limit : Nat) :
    ∀ fuel offset acc,
      paginateLoop alwaysNextEmptyRemote limit fuel offset acc = none := by
  intro fuel
  induction fuel with
  | zero => intro offset acc; rfl
  | succ fuel ih =>
    intro offset acc
    simp only [paginateLoop, alwaysNextEmptyRemote, List.append_nil, if_pos]
    exact ih (offset + limit) acc

/-- **C7 counterexample.** On a remote whose every page reports `next`
truthy with an empty items list, the playlist-listing loop
(`get_all_playlists`, page size 50) never terminates: for no amount of
fuel does it return — it has no empty-page safeguard and decides
continuation purely on `next`, contradicting the claim that both
instantiations terminate on such sequences. -/
theorem c7_counterexample :
    ¬ ∃ fuel, (get_all_playlists alwaysNextEmptyRemote fuel).isSome := by
  rintro ⟨fuel, h⟩
  rw [get_all_playlists, paginateLoop_alwaysNextEmpty] at h
  simp at h

theorem tracksLoop_terminates (remote : Remote (Option Track)) :
    ∀ k offset idx acc,
      ((remote (offset + 100 * k)).items = [] ∨
        (remote (offset + 100 * k)).next = false) →
      (tracksLoop remote 100 (k + 1) offset idx acc).isSome := by
  intro k
  induction k with
  | zero =>
    intro offset idx acc h
    simp only [Nat.mul_zero, Nat.add_zero] at h
    rw [tracksLoop]
    rcases h with h | h
    · simp [h]
    · by_cases hempty : (remote offset).items.isEmpty <;> simp [hempty, h]
  | succ k ih =>
    intro offset idx acc h
    rw [tracksLoop]
    by_cases hempty : (remote offset).items.isEmpty
    · simp [hempty]
    · simp only [hempty, Bool.false_eq_true, if_false]
      by_cases hnext : (remote offset).next
      · simp only [hnext, if_true]
        exact ih (offset + 100) _ _ (by
          have : offset + 100 + 100 * k = offset + 100 * (k + 1) := by ring
          rw [this]
          exact h)
      · simp [hnext]

/-- **C7 (amended).** The track-listing instantiation
(`get_playlist_tracks`, page size 100) terminates on every remote
response sequence in which some fetched page has an empty items list or
a falsy `next` — in particular on any page reporting `next` truthy with
empty items — via its empty-page safeguard (`if not items: break`). The
playlist-listing instantiation (page size 50) has no such safeguard and
decides continuation purely on `next`, so it terminates only when the
`next` signal eventually turns falsy. -/
theorem c7_tracks_loop_terminates (remote : Remote (Option Track)) (k : Nat)
    (h : (remote (100 * k)).items = [] ∨ (remote (100 * k)).next = false) :
    (get_playlist_tracks remote (k + 1)).isSome := by
  rw [get_playlist_tracks]
  exact tracksLoop_terminates remote k 0 0 [] (by simpa using h)

/-- Witness for C7 (amended): the all-empty always-`next` remote, whose
very first tracks page is empty, on which `get_playlist_tracks`
terminates with fuel 1. -/
theorem c7_tracks_loop_terminates_witness :
    ((fun _ => Page.mk ([] : List (Option Track)) true) (100 * 0)).items = [] ∧
    (get_playlist_tracks (fun _ => Page.mk ([] : List (Option Track)) true)
        1).isSome :=
  ⟨rfl, c7_tracks_loop_terminates (fun _ => Page.mk [] true) 0 (Or.inl rfl)⟩
